import Mathlib

/-!
Verification of the TileGrid_Gen core.

The source has two operations: TileGrid (grid composition) and resize
(square cover-fit resize). Both delegate decoding, resampling, compositing
and encoding to an external image codec (sharp) and read path inputs from
the filesystem. The development is parametric in the payload type carried
by the codec, and the two collaborators are a record of abstract functions;
the TileGrid embedding additionally records a trace of collaborator calls
so that side-effect claims can be stated.

All arithmetic in the source is on JavaScript numbers holding integers;
it is embedded as exact Int and Nat arithmetic, with floor division made
explicit (Int.fdiv is the embedding of Math.floor over a real division of
integers).
-/

deriving instance DecidableEq for Except

/-- Modelled from the spec: the type declarations (file ./type imported by
the source) are not in the sources. Per spec section 3, an Input is a
tagged union of a file-path reference and a raw byte buffer; the
constructor `other` stands for a runtime value outside the declared union,
which spec section 4.3 and the runtime checks in the source consider. -/
inductive InputData (β : Type) where
  | path (p : String)
  | buffer (b : β)
  | other
deriving DecidableEq

/-- Modelled from the spec: Input record, data plus an optional identifier
that is a label only, unused in computation. -/
structure Input (β : Type) where
  data : InputData β
  id : Option String := none
deriving DecidableEq

/-- Modelled from the spec: Options record with the defaults the source
applies on destructuring (background defaults to transparent, padding
to 0). -/
structure Options where
  output : Int
  background : String := "transparent"
  padding : Nat := 0
deriving DecidableEq

/-- Modelled from the spec: Output record of TileGrid. -/
structure Output (β : Type) where
  buffer : β
  gridSize : Nat
  count : Nat
deriving DecidableEq

/-- The error taxonomy of the operation, with the errors the source throws
itself and the propagated collaborator failures. -/
inductive TGError where
  | emptyInput
  | geometry
  | invalidInput
  | ioError (msg : String)
  | decodeError (msg : String)
  | codecError (msg : String)
deriving DecidableEq

/-- The message of each error, as the source writes it. -/
def TGError.message : TGError → String
  | .emptyInput => "No images provided"
  | .geometry => "Output size is too small for the number of images and padding"
  | .invalidInput => "Invalid image data: must be a file path or Buffer"
  | .ioError m => m
  | .decodeError m => m
  | .codecError m => m

/-- What the code hands to the image codec: resolved bytes, or, when the
code skips validation, a raw value outside the declared union. -/
inductive SharpInput (β : Type) where
  | bytes (b : β)
  | junk
deriving DecidableEq

/-- One entry of the composite list: a resized tile and its canvas
position. -/
structure CompEntry (β : Type) where
  input : β
  left : Int
  top : Int
deriving DecidableEq

/-- The background canvas description the source builds. -/
structure Canvas where
  width : Int
  height : Int
  channels : Nat
  background : String
deriving DecidableEq

/-- The external collaborators: filesystem read, codec resize (decode,
cover-fit resize, encode) and codec composite-and-encode. Collaborator
failures carry a message string. -/
structure Codec (β : Type) where
  readFile : String → Except String β
  sharpResize : SharpInput β → Int → Int → Except String β
  compositeEncode : Canvas → List (CompEntry β) → Except String β

/-- A record of one collaborator call performed by TileGrid. -/
inductive Effect (β : Type) where
  | read (p : String)
  | resizeCall
  | compositeCall (entries : List (CompEntry β))
deriving DecidableEq

/-! ## Grid geometry -/

/-- Helper for `ceilSqrt`: least k with n ≤ k * k, searched below the
fuel bound. -/
def ceilSqrtAux (n : Nat) : Nat → Nat
  | 0 => 0
  | k + 1 => if n ≤ k * k then ceilSqrtAux n k else k + 1

/-- Embedding of Math.ceil(Math.sqrt n) for a natural n: the least k with
n ≤ k * k. -/
def ceilSqrt (n : Nat) : Nat := ceilSqrtAux n n

/-- Embedding of Math.floor((output - padding * (gridSize + 1)) / gridSize)
over exact integers. -/
def tileSizeAux (output : Int) (padding : Nat) (g : Nat) : Int :=
  Int.fdiv (output - (padding : Int) * ((g : Int) + 1)) (g : Int)

/-- The tile size TileGrid computes for n images. -/
def tileSizeOf (opts : Options) (n : Nat) : Int :=
  tileSizeAux opts.output opts.padding (ceilSqrt n)

/-- The canvas position of the tile at index i: row = floor(i / gridSize),
col = i mod gridSize, left = padding + col * (tileSize + padding),
top = padding + row * (tileSize + padding). -/
def tilePos (padding : Nat) (g : Nat) (ts : Int) (i : Nat) : Int × Int :=
  ((padding : Int) + ((i % g : Nat) : Int) * (ts + (padding : Int)),
   (padding : Int) + ((i / g : Nat) : Int) * (ts + (padding : Int)))

/-- The composite list the source builds from the processed tiles. -/
def composeEntries {β : Type} (processed : List β) (g : Nat) (ts : Int)
    (padding : Nat) : List (CompEntry β) :=
  processed.enum.map fun e =>
    { input := e.2, left := (tilePos padding g ts e.1).1,
      top := (tilePos padding g ts e.1).2 }

/-! ## The two operations -/

/-- The per-image step of TileGrid: resolve the input to bytes (read the
file for a path, take a buffer as is, reject anything else), then have the
codec resize it to tileSize by tileSize. Returns the result and the trace
of collaborator calls. -/
def processOne {β : Type} (c : Codec β) (ts : Int) (image : Input β) :
    Except TGError β × List (Effect β) :=
  match image.data with
  | .path p =>
    match c.readFile p with
    | .error e => (.error (.ioError e), [.read p])
    | .ok b =>
      match c.sharpResize (.bytes b) ts ts with
      | .error e => (.error (.decodeError e), [.read p, .resizeCall])
      | .ok r => (.ok r, [.read p, .resizeCall])
  | .buffer b =>
    match c.sharpResize (.bytes b) ts ts with
    | .error e => (.error (.decodeError e), [.resizeCall])
    | .ok r => (.ok r, [.resizeCall])
  | .other => (.error .invalidInput, [])

/-- All per-image steps, collected in input order with fail-fast
propagation of the first failure (the parallel fan-out of the source is
order-preserving on success and fails when any one step fails). -/
def processAll {β : Type} (c : Codec β) (ts : Int) :
    List (Input β) → Except TGError (List β) × List (Effect β)
  | [] => (.ok [], [])
  | image :: rest =>
    match processOne c ts image with
    | (.error e, tr) => (.error e, tr)
    | (.ok b, tr) =>
      match processAll c ts rest with
      | (.error e, tr2) => (.error e, tr ++ tr2)
      | (.ok bs, tr2) => (.ok (b :: bs), tr ++ tr2)

/-- Embedding of the TileGrid function: validate non-emptiness, compute
the grid geometry, validate the tile size, process every image, then have
the codec composite the tiles onto a fresh canvas and encode the result.
The second component is the trace of collaborator calls performed. -/
def TileGrid {β : Type} (c : Codec β) (images : List (Input β))
    (options : Options) : Except TGError (Output β) × List (Effect β) :=
  if images.length = 0 then (.error .emptyInput, [])
  else
    let gridSize := ceilSqrt images.length
    let tileSize := tileSizeAux options.output options.padding gridSize
    if tileSize ≤ 0 then (.error .geometry, [])
    else
      match processAll c tileSize images with
      | (.error e, tr) => (.error e, tr)
      | (.ok processed, tr) =>
        let composite := composeEntries processed gridSize tileSize options.padding
        match c.compositeEncode
            { width := options.output, height := options.output,
              channels := 4, background := options.background } composite with
        | .error e => (.error (.codecError e), tr ++ [.compositeCall composite])
        | .ok buf =>
          (.ok { buffer := buf, gridSize := gridSize, count := images.length },
           tr ++ [.compositeCall composite])

/-- Embedding of the resize function. Note the source resolves the input
with a two-way branch only: a string is read from the filesystem and
anything else is handed to the codec as is, without the buffer check that
TileGrid performs. -/
def resize {β : Type} (c : Codec β) (image : Input β) (size : Int) :
    Except TGError β :=
  match image.data with
  | .path p =>
    match c.readFile p with
    | .error e => .error (.ioError e)
    | .ok b =>
      match c.sharpResize (.bytes b) size size with
      | .error e => .error (.decodeError e)
      | .ok r => .ok r
  | .buffer b =>
    match c.sharpResize (.bytes b) size size with
    | .error e => .error (.decodeError e)
    | .ok r => .ok r
  | .other =>
    match c.sharpResize .junk size size with
    | .error e => .error (.decodeError e)
    | .ok r => .ok r

/-! ## Concrete collaborator instances used to evaluate the operations -/

/-- A trivial codec over the unit payload: every read and resize succeeds,
and handing a non-buffer value to the codec fails with a codec message. -/
def okCodec : Codec Unit where
  readFile := fun _ => .ok ()
  sharpResize := fun inp _ _ =>
    match inp with
    | .bytes _ => .ok ()
    | .junk => .error ("unsupported input")
  compositeEncode := fun _ _ => .ok ()

/-- The dimensions of a decoded image; the external codec is modelled at
the level of dimensions, which is what the resize claims are about. -/
structure Img where
  width : Nat
  height : Nat
deriving DecidableEq

/-- Model of the collaborator contract for cover-fit scaling (spec
glossary): scale the source so that it fills the whole target box. The
result is the scaled dimensions, rounding the covering axis up. -/
def coverDims (sw sh w h : Nat) : Nat × Nat :=
  if h * sw ≤ w * sh then (w, (sh * w + (sw - 1)) / sw)
  else ((sw * h + (sh - 1)) / sh, h)

/-- Model of the collaborator contract for cover-fit resize: scale to
cover the target box, then center-crop the overflow down to the box. -/
def coverFit (img : Img) (w h : Nat) : Img :=
  let scaled := coverDims img.width img.height w h
  { width := min w scaled.1, height := min h scaled.2 }

/-- A codec over image dimensions: resize applies the cover-fit model to
a decodable (positive-dimension) image, composite returns the canvas
dimensions. -/
def dimsCodec : Codec Img where
  readFile := fun _ => .error ("ENOENT")
  sharpResize := fun inp w h =>
    match inp with
    | .junk => .error ("unsupported input")
    | .bytes img =>
      if 0 < img.width ∧ 0 < img.height ∧ 0 < w ∧ 0 < h then
        .ok (coverFit img w.toNat h.toNat)
      else .error ("resize error")
  compositeEncode := fun cv _ =>
    .ok { width := cv.width.toNat, height := cv.height.toNat }

/-! ## Pixel-level model of compositing, for the overlap claims -/

/-- Membership of a pixel in the ts-by-ts rectangle anchored at pos. -/
def inRect (pos : Int × Int) (ts : Int) (q : Int × Int) : Prop :=
  pos.1 ≤ q.1 ∧ q.1 < pos.1 + ts ∧ pos.2 ≤ q.2 ∧ q.2 < pos.2 + ts

instance (pos : Int × Int) (ts : Int) (q : Int × Int) :
    Decidable (inRect pos ts q) := by
  unfold inRect; infer_instance

/-- Two ts-by-ts rectangles are disjoint: separated along some axis. -/
def rectsDisjoint (a b : Int × Int) (ts : Int) : Prop :=
  a.1 + ts ≤ b.1 ∨ b.1 + ts ≤ a.1 ∨ a.2 + ts ≤ b.2 ∨ b.2 + ts ≤ a.2

/-- Painting one tile over an accumulated canvas: inside the tile
rectangle the tile pixel wins, elsewhere the canvas shows through. -/
def overlay {α : Type} (ts : Int) (acc : Int × Int → α)
    (e : (Int × Int) × (Int × Int → α)) : Int × Int → α :=
  fun q => if inRect e.1 ts q then e.2 (q.1 - e.1.1, q.2 - e.1.2) else acc q

/-- Compositing a list of tiles in order onto a background: later entries
are painted over earlier ones. -/
def paint {α : Type} (ts : Int) (bg : Int × Int → α)
    (l : List ((Int × Int) × (Int × Int → α))) : Int × Int → α :=
  l.foldl (overlay ts) bg

/-! ## Fixtures used to evaluate the operations on concrete inputs -/

/-- A single buffer input over the unit payload. -/
def bufInput : Input Unit := { data := .buffer () }

/-- Four buffer inputs. -/
def imgs4 : List (Input Unit) := [bufInput, bufInput, bufInput, bufInput]

/-- The options of the 4-image scenario of the spec. -/
def opts400 : Options := { output := 400, padding := 10 }

/-! ## Basic facts about the geometry -/

theorem ceilSqrtAux_le_self (n : Nat) : ∀ m, ceilSqrtAux n m ≤ m := by
  intro m
  induction m with
  | zero => simp [ceilSqrtAux]
  | succ k ih =>
    simp only [ceilSqrtAux]
    split
    · exact Nat.le_trans ih (Nat.le_succ k)
    · exact Nat.le_refl _

theorem ceilSqrtAux_le_sq (n : Nat) : ∀ m, n ≤ m * m → n ≤ ceilSqrtAux n m * ceilSqrtAux n m := by
  intro m
  induction m with
  | zero => simp [ceilSqrtAux]
  | succ k ih =>
    intro h
    simp only [ceilSqrtAux]
    split
    · exact ih (by assumption)
    · exact h

theorem ceilSqrtAux_least (n : Nat) : ∀ m j, n ≤ j * j → j ≤ m → ceilSqrtAux n m ≤ j := by
  intro m
  induction m with
  | zero => intro j _ _; simp [ceilSqrtAux]
  | succ k ih =>
    intro j hj hjm
    simp only [ceilSqrtAux]
    split
    · rcases Nat.lt_or_ge j (k + 1) with hlt | hge
      · exact ih j hj (Nat.lt_succ_iff.mp hlt)
      · exact Nat.le_trans (Nat.le_trans (ceilSqrtAux_le_self n k) (Nat.le_succ k)) hge
    · rename_i hk
      by_contra hcon
      push_neg at hcon
      have : j * j ≤ k * k :=
        Nat.mul_le_mul (Nat.lt_succ_iff.mp hcon) (Nat.lt_succ_iff.mp hcon)
      exact hk (Nat.le_trans hj this)

theorem le_ceilSqrt_sq (n : Nat) : n ≤ ceilSqrt n * ceilSqrt n := by
  have h : n ≤ n * n := by nlinarith [Nat.zero_le n]
  exact ceilSqrtAux_le_sq n n h

theorem ceilSqrt_least {n j : Nat} (h : n ≤ j * j) : ceilSqrt n ≤ j := by
  rcases Nat.le_total j n with hjn | hnj
  · exact ceilSqrtAux_least n n j h hjn
  · exact Nat.le_trans (ceilSqrtAux_le_self n n) hnj

theorem ceilSqrt_pos {n : Nat} (h : 1 ≤ n) : 1 ≤ ceilSqrt n := by
  by_contra hc
  push_neg at hc
  have h0 : ceilSqrt n = 0 := by omega
  have hsq := le_ceilSqrt_sq n
  rw [h0] at hsq
  omega

theorem rectsDisjoint_symm {a b : Int × Int} {ts : Int} :
    rectsDisjoint a b ts → rectsDisjoint b a ts := by
  unfold rectsDisjoint; tauto

theorem not_inRect_both {a b : Int × Int} {ts : Int} {q : Int × Int}
    (hd : rectsDisjoint a b ts) (ha : inRect a ts q) (hb : inRect b ts q) :
    False := by
  unfold rectsDisjoint at hd
  unfold inRect at ha hb
  omega

theorem overlay_comm {α : Type} (ts : Int) (acc : Int × Int → α)
    (a b : (Int × Int) × (Int × Int → α)) (hd : rectsDisjoint a.1 b.1 ts) :
    overlay ts (overlay ts acc a) b = overlay ts (overlay ts acc b) a := by
  funext q
  unfold overlay
  by_cases ha : inRect a.1 ts q <;> by_cases hb : inRect b.1 ts q
  · exact (not_inRect_both hd ha hb).elim
  all_goals simp [ha, hb]

theorem paint_perm {α : Type} (ts : Int)
    {l l' : List ((Int × Int) × (Int × Int → α))} (hp : l.Perm l') :
    l.Pairwise (fun a b => rectsDisjoint a.1 b.1 ts) →
    ∀ bg, paint ts bg l = paint ts bg l' := by
  induction hp with
  | nil => intro _ _; rfl
  | cons x hp ih =>
    intro hd bg
    simp only [paint, List.foldl_cons]
    exact ih (List.pairwise_cons.mp hd).2 (overlay ts bg x)
  | swap x y l =>
    intro hd bg
    simp only [paint, List.foldl_cons]
    have hxy : rectsDisjoint y.1 x.1 ts :=
      (List.pairwise_cons.mp hd).1 x (by simp)
    rw [overlay_comm ts bg y x hxy]
  | trans h1 h2 ih1 ih2 =>
    intro hd bg
    rw [ih1 hd bg, ih2 (((h1.pairwise_iff (fun h => rectsDisjoint_symm h)).mp hd)) bg]

/-! ## Arithmetic facts about the computed geometry -/

theorem tileSizeAux_mul_le {output : Int} {p g : Nat} (hg : 0 < g) :
    (g : Int) * tileSizeAux output p g ≤ output - (p : Int) * ((g : Int) + 1) := by
  unfold tileSizeAux
  have hgz : (0 : Int) ≤ (g : Int) := Int.natCast_nonneg g
  rw [Int.fdiv_eq_ediv _ hgz]
  have hne : (g : Int) ≠ 0 := by exact_mod_cast Nat.pos_iff_ne_zero.mp hg
  have h := Int.ediv_mul_le (output - (p : Int) * ((g : Int) + 1)) hne
  linarith [h]

theorem tileSizeAux_nonpos {output : Int} {p g : Nat} (hg : 0 < g)
    (hnum : output - (p : Int) * ((g : Int) + 1) < 0) :
    tileSizeAux output p g ≤ 0 := by
  unfold tileSizeAux
  have hgz : (0 : Int) ≤ (g : Int) := Int.natCast_nonneg g
  rw [Int.fdiv_eq_ediv _ hgz]
  by_contra hc
  push_neg at hc
  have hgpos : (0 : Int) < (g : Int) := by exact_mod_cast hg
  have h1 : (1 : Int) ≤ (output - (p : Int) * ((g : Int) + 1)) / (g : Int) := hc
  rw [Int.le_ediv_iff_mul_le hgpos] at h1
  linarith

theorem tileSizeAux_decomp {output : Int} {p g : Nat} :
    (g : Int) * tileSizeAux output p g +
      (output - (p : Int) * ((g : Int) + 1)) % (g : Int) =
      output - (p : Int) * ((g : Int) + 1) := by
  unfold tileSizeAux
  have hgz : (0 : Int) ≤ (g : Int) := Int.natCast_nonneg g
  rw [Int.fdiv_eq_ediv _ hgz]
  exact Int.ediv_add_emod _ _

/-- Separation of two grid coordinates along one axis: indices in
different columns (or rows) are at least a full tile apart. -/
theorem tilePos_sep {p : Nat} {ts : Int} (hts : 0 < ts) {a b : Nat}
    (hab : a < b) :
    (p : Int) + (a : Int) * (ts + (p : Int)) + ts ≤
      (p : Int) + (b : Int) * (ts + (p : Int)) := by
  have h1 : (a : Int) + 1 ≤ (b : Int) := by exact_mod_cast hab
  have h2 : (0 : Int) ≤ (p : Int) := Int.natCast_nonneg p
  nlinarith

theorem tilePos_disjoint {p g : Nat} {ts : Int} (hts : 0 < ts) {i j : Nat}
    (hij : i ≠ j) :
    rectsDisjoint (tilePos p g ts i) (tilePos p g ts j) ts := by
  have hcases : i % g ≠ j % g ∨ i / g ≠ j / g := by
    by_contra hc
    push_neg at hc
    apply hij
    calc i = g * (i / g) + i % g := (Nat.div_add_mod i g).symm
    _ = g * (j / g) + j % g := by rw [hc.1, hc.2]
    _ = j := Nat.div_add_mod j g
  unfold rectsDisjoint tilePos
  rcases hcases with hc | hr
  · rcases Nat.lt_or_ge (i % g) (j % g) with h | h
    · exact Or.inl (tilePos_sep hts h)
    · exact Or.inr (Or.inl (tilePos_sep hts (Nat.lt_of_le_of_ne h (fun e => hc e.symm))))
  · rcases Nat.lt_or_ge (i / g) (j / g) with h | h
    · exact Or.inr (Or.inr (Or.inl (tilePos_sep hts h)))
    · exact Or.inr (Or.inr (Or.inr (tilePos_sep hts (Nat.lt_of_le_of_ne h (fun e => hr e.symm)))))

/-! ## Shape facts about the processing pipeline -/

theorem processOne_error_shape {β : Type} (c : Codec β) (ts : Int)
    (image : Input β) :
    (processOne c ts image).1 ≠ .error .geometry ∧
      (processOne c ts image).1 ≠ .error .emptyInput := by
  obtain ⟨d, i⟩ := image
  cases d <;> simp only [processOne] <;> (repeat' split) <;> simp_all

theorem processAll_error_shape {β : Type} (c : Codec β) (ts : Int) :
    ∀ l : List (Input β),
      (processAll c ts l).1 ≠ .error .geometry ∧
        (processAll c ts l).1 ≠ .error .emptyInput := by
  intro l
  induction l with
  | nil => simp [processAll]
  | cons image rest ih =>
    simp only [processAll]
    split
    · rename_i e tr heq
      have h := processOne_error_shape c ts image
      rw [heq] at h
      simpa using h
    · split
      · rename_i heq2
        have := ih
        rw [heq2] at this
        simpa using this
      · simp

theorem processAll_ok_length {β : Type} (c : Codec β) (ts : Int) :
    ∀ (l : List (Input β)) (bs : List β) (tr : List (Effect β)),
      processAll c ts l = (.ok bs, tr) → bs.length = l.length := by
  intro l
  induction l with
  | nil => intro bs tr h; simp [processAll] at h; simp [h.1]
  | cons image rest ih =>
    intro bs tr h
    simp only [processAll] at h
    split at h
    · simp at h
    · split at h
      · simp at h
      · rename_i b tr1 heq1 bs2 tr2 heq2
        obtain ⟨h1, h2⟩ := Prod.mk.injEq .. ▸ h
        cases h1
        simp [ih bs2 tr2 heq2]

theorem composeEntries_getElem {β : Type} (processed : List β) (g : Nat)
    (ts : Int) (p : Nat) (i : Nat) :
    (composeEntries processed g ts p)[i]? =
      Option.map (fun b =>
        { input := b, left := (tilePos p g ts i).1,
          top := (tilePos p g ts i).2 : CompEntry β }) processed[i]? := by
  unfold composeEntries
  rw [List.getElem?_map, List.getElem?_enum]
  cases processed[i]? <;> simp

/-! ## Claims -/

/-- Claim C4: compose applied to an empty image sequence fails with
EmptyInputError carrying the message of the source, regardless of the
options supplied; no collaborator call is made. -/
theorem compose_empty_input {β : Type} (c : Codec β) (opts : Options) :
    TileGrid c ([] : List (Input β)) opts = (.error .emptyInput, []) ∧
      TGError.emptyInput.message = "No images provided" :=
  ⟨by simp [TileGrid], rfl⟩

/-- Claim C1: for every non-empty input sequence on which compose succeeds, the
returned gridSize is ceil(sqrt n) (the least k with n ≤ k * k) and the
returned count is n. -/
theorem compose_gridSize_count {β : Type} (c : Codec β)
    (images : List (Input β)) (opts : Options) (out : Output β)
    (hne : images ≠ []) (hok : (TileGrid c images opts).1 = .ok out) :
    out.gridSize = ceilSqrt images.length ∧ out.count = images.length ∧
      images.length ≤ out.gridSize * out.gridSize ∧
      ∀ k, images.length ≤ k * k → out.gridSize ≤ k := by
  have h0 : ¬ images.length = 0 := by simpa using hne
  by_cases hts : tileSizeAux opts.output opts.padding (ceilSqrt images.length) ≤ 0
  · simp [TileGrid, h0, hts] at hok
  · simp only [TileGrid, h0, if_neg, ite_false, hts] at hok
    split at hok
    · simp at hok
    · split at hok
      · simp at hok
      · simp only [Except.ok.injEq] at hok
        subst hok
        exact ⟨rfl, rfl, le_ceilSqrt_sq _, fun k hk => ceilSqrt_least hk⟩

theorem compose_gridSize_count_witness :
    ({ buffer := (), gridSize := 2, count := 4 } : Output Unit).gridSize =
        ceilSqrt imgs4.length ∧
      ({ buffer := (), gridSize := 2, count := 4 } : Output Unit).count =
        imgs4.length ∧
      imgs4.length ≤ 2 * 2 ∧
      ∀ k, imgs4.length ≤ k * k →
        ({ buffer := (), gridSize := 2, count := 4 } : Output Unit).gridSize ≤ k :=
  compose_gridSize_count okCodec imgs4 opts400
    { buffer := (), gridSize := 2, count := 4 } (by decide) (by decide)

/-- Past both validations, the result of TileGrid is never one of the two
validation errors. -/
theorem TileGrid_pos_ne_validation {β : Type} (c : Codec β)
    (images : List (Input β)) (opts : Options)
    (h0 : ¬ images.length = 0)
    (hts : ¬ tileSizeAux opts.output opts.padding (ceilSqrt images.length) ≤ 0) :
    (TileGrid c images opts).1 ≠ .error .geometry ∧
      (TileGrid c images opts).1 ≠ .error .emptyInput := by
  simp only [TileGrid]
  rw [if_neg h0, if_neg hts]
  constructor <;> intro h
  · split at h
    · rename_i e tr heq
      have hs := (processAll_error_shape c
        (tileSizeAux opts.output opts.padding (ceilSqrt images.length)) images).1
      rw [heq] at hs
      exact hs (by simpa using h)
    · split at h <;> simp at h
  · split at h
    · rename_i e tr heq
      have hs := (processAll_error_shape c
        (tileSizeAux opts.output opts.padding (ceilSqrt images.length)) images).2
      rw [heq] at hs
      exact hs (by simpa using h)
    · split at h <;> simp at h

/-- Claim C2: for a non-empty input sequence, compose fails with GeometryError
(with the message of the source) exactly when the computed
tileSize = floor((output - padding * (gridSize + 1)) / gridSize) is not
positive; with output 10 and padding 50 it fails for every image count. -/
theorem compose_geometry_error {β : Type} (c : Codec β)
    (images : List (Input β)) (opts : Options) (hne : images ≠ []) :
    ((TileGrid c images opts).1 = .error .geometry ↔
        tileSizeOf opts images.length ≤ 0) ∧
      TGError.geometry.message =
        "Output size is too small for the number of images and padding" ∧
      (opts.output = 10 ∧ opts.padding = 50 →
        (TileGrid c images opts).1 = .error .geometry) := by
  have h0 : ¬ images.length = 0 := by simpa using hne
  have hn1 : 1 ≤ images.length := Nat.pos_of_ne_zero h0
  have hmain : (TileGrid c images opts).1 = .error .geometry ↔
      tileSizeOf opts images.length ≤ 0 := by
    by_cases hts : tileSizeAux opts.output opts.padding (ceilSqrt images.length) ≤ 0
    · simp [TileGrid, h0, hts, tileSizeOf]
    · rw [tileSizeOf]
      exact iff_of_false (TileGrid_pos_ne_validation c images opts h0 hts).1 hts
  refine ⟨hmain, rfl, ?_⟩
  rintro ⟨ho, hp⟩
  rw [hmain, tileSizeOf]
  have hg : 0 < ceilSqrt images.length := ceilSqrt_pos hn1
  apply tileSizeAux_nonpos hg
  rw [ho, hp]
  have h1 : (1 : Int) ≤ (ceilSqrt images.length : Int) := by exact_mod_cast hg
  push_cast
  linarith

theorem compose_geometry_error_witness :
    ((TileGrid okCodec imgs4 { output := 10, padding := 50 }).1 =
          .error .geometry ↔
        tileSizeOf { output := 10, padding := 50 } imgs4.length ≤ 0) ∧
      TGError.geometry.message =
        "Output size is too small for the number of images and padding" ∧
      (({ output := 10, padding := 50 } : Options).output = 10 ∧
          ({ output := 10, padding := 50 } : Options).padding = 50 →
        (TileGrid okCodec imgs4 { output := 10, padding := 50 }).1 =
          .error .geometry) :=
  compose_geometry_error okCodec imgs4 { output := 10, padding := 50 } (by decide)

/-- Claim C9: when compose fails with EmptyInputError or GeometryError, its
trace of collaborator calls is empty: no filesystem read and no codec
call has been performed. -/
theorem validation_before_effects {β : Type} (c : Codec β)
    (images : List (Input β)) (opts : Options)
    (h : (TileGrid c images opts).1 = .error .emptyInput ∨
      (TileGrid c images opts).1 = .error .geometry) :
    (TileGrid c images opts).2 = [] := by
  by_cases h0 : images.length = 0
  · simp [TileGrid, h0]
  · by_cases hts : tileSizeAux opts.output opts.padding (ceilSqrt images.length) ≤ 0
    · simp [TileGrid, h0, hts]
    · exfalso
      have hn := TileGrid_pos_ne_validation c images opts h0 hts
      rcases h with h | h
      · exact hn.2 h
      · exact hn.1 h

theorem validation_before_effects_witness :
    (TileGrid okCodec ([] : List (Input Unit)) { output := 200 }).2 = [] :=
  validation_before_effects okCodec [] { output := 200 } (Or.inl (by decide))

/-- When TileGrid succeeds, the per-image pipeline succeeded with one
resized tile per input, and the composite list built from them was handed
to the codec. -/
theorem TileGrid_ok_trace {β : Type} (c : Codec β) (images : List (Input β))
    (opts : Options) (out : Output β)
    (hok : (TileGrid c images opts).1 = .ok out) :
    ∃ processed tr,
      processAll c (tileSizeAux opts.output opts.padding (ceilSqrt images.length))
          images = (.ok processed, tr) ∧
        processed.length = images.length ∧
        Effect.compositeCall (composeEntries processed (ceilSqrt images.length)
            (tileSizeAux opts.output opts.padding (ceilSqrt images.length))
            opts.padding) ∈ (TileGrid c images opts).2 := by
  by_cases h0 : images.length = 0
  · simp [TileGrid, h0] at hok
  · by_cases hts : tileSizeAux opts.output opts.padding (ceilSqrt images.length) ≤ 0
    · simp [TileGrid, h0, hts] at hok
    · simp only [TileGrid] at hok ⊢
      rw [if_neg h0, if_neg hts] at hok ⊢
      split at hok
      · simp at hok
      · rename_i processed tr heq
        split at hok
        · simp at hok
        · rename_i buf heq2
          refine ⟨processed, tr, heq,
            processAll_ok_length c _ images processed tr heq, ?_⟩
          simp

/-- Claim C3: whenever compose succeeds, the composite list handed to the codec
places the tile of index i at left = padding + (i mod gridSize) *
(tileSize + padding) and top = padding + floor(i / gridSize) *
(tileSize + padding). -/
theorem compose_placement {β : Type} (c : Codec β) (images : List (Input β))
    (opts : Options) (out : Output β)
    (hok : (TileGrid c images opts).1 = .ok out) (i : Nat)
    (hi : i < images.length) :
    ∃ entries, Effect.compositeCall entries ∈ (TileGrid c images opts).2 ∧
      ∃ e, entries[i]? = some e ∧
        e.left = (opts.padding : Int) +
            ((i % ceilSqrt images.length : Nat) : Int) *
              (tileSizeOf opts images.length + (opts.padding : Int)) ∧
        e.top = (opts.padding : Int) +
            ((i / ceilSqrt images.length : Nat) : Int) *
              (tileSizeOf opts images.length + (opts.padding : Int)) := by
  obtain ⟨processed, tr, heq, hlen, hmem⟩ := TileGrid_ok_trace c images opts out hok
  refine ⟨_, hmem, ?_⟩
  have hip : i < processed.length := hlen ▸ hi
  rw [composeEntries_getElem, List.getElem?_eq_getElem hip]
  exact ⟨_, rfl, rfl, rfl⟩

theorem compose_placement_witness :
    ∃ entries,
      Effect.compositeCall entries ∈ (TileGrid okCodec imgs4 opts400).2 ∧
        ∃ e, entries[3]? = some e ∧
          e.left = (opts400.padding : Int) +
              ((3 % ceilSqrt imgs4.length : Nat) : Int) *
                (tileSizeOf opts400 imgs4.length + (opts400.padding : Int)) ∧
          e.top = (opts400.padding : Int) +
              ((3 / ceilSqrt imgs4.length : Nat) : Int) *
                (tileSizeOf opts400 imgs4.length + (opts400.padding : Int)) :=
  compose_placement okCodec imgs4 opts400
    { buffer := (), gridSize := 2, count := 4 } (by decide) 3 (by decide)

/-- One grid coordinate with index below the grid side stays between the
leading margin and the far edge of the canvas. -/
theorem tileCoord_bound {p g : Nat} {ts output : Int} (hts : 0 < ts)
    (hmul : (g : Int) * ts ≤ output - (p : Int) * ((g : Int) + 1))
    {c : Nat} (hc : c < g) :
    (p : Int) ≤ (p : Int) + (c : Int) * (ts + (p : Int)) ∧
      (p : Int) + (c : Int) * (ts + (p : Int)) + ts ≤ output := by
  have hp : (0 : Int) ≤ (p : Int) := Int.natCast_nonneg p
  have hcn : (0 : Int) ≤ (c : Int) := Int.natCast_nonneg c
  have hcg : (c : Int) + 1 ≤ (g : Int) := by exact_mod_cast hc
  have htp : (0 : Int) < ts + (p : Int) := by linarith
  constructor
  · nlinarith
  · have h1 : (c : Int) * (ts + (p : Int)) ≤ ((g : Int) - 1) * (ts + (p : Int)) := by
      apply mul_le_mul_of_nonneg_right _ (le_of_lt htp)
      linarith
    nlinarith

/-- Claim C10: for every valid composition (count at least 1, positive tile
size) and index i below the count, the placed tile lies entirely within
the output-by-output canvas, below neither margin. -/
theorem tiles_within_canvas (opts : Options) (n i : Nat) (hn : 1 ≤ n)
    (hts : 0 < tileSizeOf opts n) (hi : i < n) :
    (opts.padding : Int) ≤
        (tilePos opts.padding (ceilSqrt n) (tileSizeOf opts n) i).1 ∧
      (opts.padding : Int) ≤
        (tilePos opts.padding (ceilSqrt n) (tileSizeOf opts n) i).2 ∧
      (tilePos opts.padding (ceilSqrt n) (tileSizeOf opts n) i).1 +
          tileSizeOf opts n ≤ opts.output ∧
      (tilePos opts.padding (ceilSqrt n) (tileSizeOf opts n) i).2 +
          tileSizeOf opts n ≤ opts.output := by
  have hg : 1 ≤ ceilSqrt n := ceilSqrt_pos hn
  have hmul := @tileSizeAux_mul_le opts.output opts.padding (ceilSqrt n) hg
  have hcol : i % ceilSqrt n < ceilSqrt n := Nat.mod_lt i hg
  have hrow : i / ceilSqrt n < ceilSqrt n := by
    rw [Nat.div_lt_iff_lt_mul hg]
    exact Nat.lt_of_lt_of_le hi (le_ceilSqrt_sq n)
  have h1 := tileCoord_bound hts hmul hcol
  have h2 := tileCoord_bound hts hmul hrow
  exact ⟨h1.1, h2.1, h1.2, h2.2⟩

theorem tiles_within_canvas_witness :
    (opts400.padding : Int) ≤
        (tilePos opts400.padding (ceilSqrt 4) (tileSizeOf opts400 4) 3).1 ∧
      (opts400.padding : Int) ≤
        (tilePos opts400.padding (ceilSqrt 4) (tileSizeOf opts400 4) 3).2 ∧
      (tilePos opts400.padding (ceilSqrt 4) (tileSizeOf opts400 4) 3).1 +
          tileSizeOf opts400 4 ≤ opts400.output ∧
      (tilePos opts400.padding (ceilSqrt 4) (tileSizeOf opts400 4) 3).2 +
          tileSizeOf opts400 4 ≤ opts400.output :=
  tiles_within_canvas opts400 4 3 (by decide) (by decide) (by decide)

/-- Claim C7 counterexample: with output 10, padding 0 and 9 images the
composition is valid (tileSize = 3 > 0) and index 8 sits in the last
occupied column, yet the margin right of it is 10 - (6 + 3) = 1, not the
padding 0: the floor division leaves a remainder on the far edges. -/
theorem margin_counterexample :
    1 ≤ 9 ∧ 0 < tileSizeOf { output := 10 } 9 ∧
      8 % ceilSqrt 9 = ceilSqrt 9 - 1 ∧
      ({ output := 10 } : Options).output -
          ((tilePos ({ output := 10 } : Options).padding (ceilSqrt 9)
              (tileSizeOf { output := 10 } 9) 8).1 +
            tileSizeOf { output := 10 } 9) ≠
        ((({ output := 10 } : Options).padding : Int)) := by decide

/-- The far-edge margin of a grid coordinate with the last index: the
distance from the end of the last tile to the canvas edge is padding plus
the remainder the floor division discards. -/
theorem coord_far_margin (output : Int) (p g : Nat) (hg : 1 ≤ g) :
    output - (((p : Int) + (((g - 1 : Nat)) : Int) *
          (tileSizeAux output p g + (p : Int))) + tileSizeAux output p g) =
      (p : Int) + (output - (p : Int) * ((g : Int) + 1)) % (g : Int) := by
  have hd := @tileSizeAux_decomp output p g
  rw [Nat.cast_sub hg]
  push_cast
  linear_combination (-1 : Int) * hd

/-- Claim C7 amended: the left and top margins are exactly padding, while
the margin right of a tile in the last occupied column, and the margin
below a tile in the last occupied row, are padding plus the remainder
(output - padding * (gridSize + 1)) mod gridSize that the floor division
discards; they equal padding exactly when gridSize divides the available
space. -/
theorem margins_with_remainder (opts : Options) (n : Nat) (hn : 1 ≤ n)
    (hts : 0 < tileSizeOf opts n) :
    (∀ i, i % ceilSqrt n = ceilSqrt n - 1 →
      opts.output -
          ((tilePos opts.padding (ceilSqrt n) (tileSizeOf opts n) i).1 +
            tileSizeOf opts n) =
        (opts.padding : Int) +
          (opts.output - (opts.padding : Int) * ((ceilSqrt n : Int) + 1)) %
            (ceilSqrt n : Int)) ∧
      (∀ i, i / ceilSqrt n = ceilSqrt n - 1 →
        opts.output -
            ((tilePos opts.padding (ceilSqrt n) (tileSizeOf opts n) i).2 +
              tileSizeOf opts n) =
          (opts.padding : Int) +
            (opts.output - (opts.padding : Int) * ((ceilSqrt n : Int) + 1)) %
              (ceilSqrt n : Int)) ∧
      (∀ j, j % ceilSqrt n = 0 →
        (tilePos opts.padding (ceilSqrt n) (tileSizeOf opts n) j).1 =
          (opts.padding : Int)) ∧
      (∀ j, j / ceilSqrt n = 0 →
        (tilePos opts.padding (ceilSqrt n) (tileSizeOf opts n) j).2 =
          (opts.padding : Int)) := by
  have hg : 1 ≤ ceilSqrt n := ceilSqrt_pos hn
  refine ⟨?_, ?_, ?_, ?_⟩
  · intro i hcol
    simp only [tileSizeOf, tilePos]
    rw [hcol]
    exact coord_far_margin opts.output opts.padding (ceilSqrt n) hg
  · intro i hrow
    simp only [tileSizeOf, tilePos]
    rw [hrow]
    exact coord_far_margin opts.output opts.padding (ceilSqrt n) hg
  · intro j hj
    simp [tilePos, hj]
  · intro j hj
    simp [tilePos, hj]

theorem margins_with_remainder_witness :
    (∀ i, i % ceilSqrt 9 = ceilSqrt 9 - 1 →
      ({ output := 10 } : Options).output -
          ((tilePos ({ output := 10 } : Options).padding (ceilSqrt 9)
              (tileSizeOf { output := 10 } 9) i).1 +
            tileSizeOf { output := 10 } 9) =
        ((({ output := 10 } : Options).padding : Int)) +
          (({ output := 10 } : Options).output -
              ((({ output := 10 } : Options).padding : Int)) *
                ((ceilSqrt 9 : Int) + 1)) % (ceilSqrt 9 : Int)) ∧
      (∀ i, i / ceilSqrt 9 = ceilSqrt 9 - 1 →
        ({ output := 10 } : Options).output -
            ((tilePos ({ output := 10 } : Options).padding (ceilSqrt 9)
                (tileSizeOf { output := 10 } 9) i).2 +
              tileSizeOf { output := 10 } 9) =
          ((({ output := 10 } : Options).padding : Int)) +
            (({ output := 10 } : Options).output -
                ((({ output := 10 } : Options).padding : Int)) *
                  ((ceilSqrt 9 : Int) + 1)) % (ceilSqrt 9 : Int)) ∧
      (∀ j, j % ceilSqrt 9 = 0 →
        (tilePos ({ output := 10 } : Options).padding (ceilSqrt 9)
            (tileSizeOf { output := 10 } 9) j).1 =
          ((({ output := 10 } : Options).padding : Int))) ∧
      (∀ j, j / ceilSqrt 9 = 0 →
        (tilePos ({ output := 10 } : Options).padding (ceilSqrt 9)
            (tileSizeOf { output := 10 } 9) j).2 =
          ((({ output := 10 } : Options).padding : Int))) :=
  margins_with_remainder { output := 10 } 9 (by decide) (by decide)

/-- Claim C6: under a positive tile size, the tiles of two distinct indices
occupy disjoint tileSize-by-tileSize rectangles, and therefore painting
the tiles in any order (any permutation of the placement list) yields the
same pixels. -/
theorem tiles_disjoint_order_independent (opts : Options) (n i j : Nat)
    (hi : i < n) (hj : j < n) (hij : i ≠ j)
    (hts : 0 < tileSizeOf opts n) :
    rectsDisjoint (tilePos opts.padding (ceilSqrt n) (tileSizeOf opts n) i)
        (tilePos opts.padding (ceilSqrt n) (tileSizeOf opts n) j)
        (tileSizeOf opts n) ∧
      ∀ (α : Type) (tiles : Nat → Int × Int → α) (bg : Int × Int → α)
        (l' : List ((Int × Int) × (Int × Int → α))),
        ((List.range n).map fun k =>
            (tilePos opts.padding (ceilSqrt n) (tileSizeOf opts n) k,
              tiles k)).Perm l' →
        paint (tileSizeOf opts n) bg
            ((List.range n).map fun k =>
              (tilePos opts.padding (ceilSqrt n) (tileSizeOf opts n) k,
                tiles k)) =
          paint (tileSizeOf opts n) bg l' := by
  refine ⟨tilePos_disjoint hts hij, ?_⟩
  intro α tiles bg l' hp
  exact paint_perm _ hp
    (List.Pairwise.map _
      (fun a b hab => tilePos_disjoint hts (Nat.ne_of_lt hab))
      (List.pairwise_lt_range n)) bg

theorem tiles_disjoint_order_independent_witness :
    rectsDisjoint (tilePos opts400.padding (ceilSqrt 4) (tileSizeOf opts400 4) 0)
        (tilePos opts400.padding (ceilSqrt 4) (tileSizeOf opts400 4) 1)
        (tileSizeOf opts400 4) ∧
      ∀ (α : Type) (tiles : Nat → Int × Int → α) (bg : Int × Int → α)
        (l' : List ((Int × Int) × (Int × Int → α))),
        ((List.range 4).map fun k =>
            (tilePos opts400.padding (ceilSqrt 4) (tileSizeOf opts400 4) k,
              tiles k)).Perm l' →
        paint (tileSizeOf opts400 4) bg
            ((List.range 4).map fun k =>
              (tilePos opts400.padding (ceilSqrt 4) (tileSizeOf opts400 4) k,
                tiles k)) =
          paint (tileSizeOf opts400 4) bg l' :=
  tiles_disjoint_order_independent opts400 4 0 1 (by decide) (by decide)
    (by decide) (by decide)

/-- Claim C5 counterexample: for data that is neither a path nor a buffer, the
per-image step of compose fails with the invalid-input error, but resize
does not: it hands the raw value to the codec, and the failure that comes
back is the propagated codec message, not the invalid-input error. -/
theorem resize_invalid_counterexample :
    resize okCodec ({ data := .other } : Input Unit) 150 =
        .error (.decodeError ("unsupported input")) ∧
      resize okCodec ({ data := .other } : Input Unit) 150 ≠
        .error .invalidInput ∧
      (processOne okCodec 150 ({ data := .other } : Input Unit)).1 =
        .error .invalidInput := by decide

/-- Claim C5 amended: the per-image resolution step of compose fails with
InvalidInputError on data that is neither a path nor a buffer, while
resize skips that check and forwards the unresolved value to the codec:
its outcome is the codec outcome (an error is propagated as a decode
failure), never InvalidInputError. -/
theorem per_image_invalid_vs_resize {β : Type} (c : Codec β) (ts : Int)
    (image : Input β) (h : image.data = .other) :
    processOne c ts image = (.error .invalidInput, []) ∧
      TGError.invalidInput.message =
        "Invalid image data: must be a file path or Buffer" ∧
      resize c image ts ≠ .error .invalidInput ∧
      (∀ e, c.sharpResize .junk ts ts = .error e →
        resize c image ts = .error (.decodeError e)) ∧
      ∀ r, c.sharpResize .junk ts ts = .ok r → resize c image ts = .ok r := by
  obtain ⟨d, idf⟩ := image
  simp only at h
  subst h
  refine ⟨rfl, rfl, ?_, ?_, ?_⟩
  · simp only [resize]
    split <;> simp
  · intro e he
    simp [resize, he]
  · intro r hr
    simp [resize, hr]

theorem per_image_invalid_vs_resize_witness :
    processOne okCodec 150 ({ data := .other } : Input Unit) =
        (.error .invalidInput, []) ∧
      TGError.invalidInput.message =
        "Invalid image data: must be a file path or Buffer" ∧
      resize okCodec ({ data := .other } : Input Unit) 150 ≠
        .error .invalidInput ∧
      (∀ e, okCodec.sharpResize .junk 150 150 = .error e →
        resize okCodec ({ data := .other } : Input Unit) 150 =
          .error (.decodeError e)) ∧
      ∀ r, okCodec.sharpResize .junk 150 150 = .ok r →
        resize okCodec ({ data := .other } : Input Unit) 150 = .ok r :=
  per_image_invalid_vs_resize okCodec 150 { data := .other } rfl

/-- Scaling to cover and then center-cropping always lands exactly on the
target box, whatever the source dimensions, provided the source is a real
image (positive dimensions). -/
theorem coverFit_dims (img : Img) (w h : Nat) (hw0 : 0 < img.width)
    (hh0 : 0 < img.height) :
    coverFit img w h = { width := w, height := h } := by
  obtain ⟨sw, sh⟩ := img
  simp only at hw0 hh0
  unfold coverFit coverDims
  simp only
  split
  · rename_i hcond
    have hdiv : h ≤ (sh * w + (sw - 1)) / sw := by
      rw [Nat.le_div_iff_mul_le hw0]
      have h1 : h * sw ≤ sh * w := by
        calc h * sw ≤ w * sh := hcond
        _ = sh * w := Nat.mul_comm w sh
      exact Nat.le_trans h1 (Nat.le_add_right _ _)
    simp [Nat.min_eq_left hdiv]
  · rename_i hcond
    have hdiv : w ≤ (sw * h + (sh - 1)) / sh := by
      rw [Nat.le_div_iff_mul_le hh0]
      have h1 : w * sh ≤ sw * h := by
        calc w * sh ≤ h * sw := Nat.le_of_lt (Nat.lt_of_not_le hcond)
        _ = sw * h := Nat.mul_comm h sw
      exact Nat.le_trans h1 (Nat.le_add_right _ _)
    simp [Nat.min_eq_left hdiv]

/-- Claim C8: the square resize of a decodable image of any dimensions returns
an image of exactly size-by-size pixels: the code asks the codec for a
size-by-size cover-fit resize, and cover-fit lands exactly on the box. -/
theorem resize_square_dims (img : Img) (n : Nat) (hw : 0 < img.width)
    (hh : 0 < img.height) (hn : 0 < n) :
    resize dimsCodec { data := .buffer img } ((n : Nat) : Int) =
      .ok { width := n, height := n } := by
  have hcast : (0 : Int) < ((n : Nat) : Int) := by exact_mod_cast hn
  simp [resize, dimsCodec, hw, hh, hcast, coverFit_dims img n n hw hh]

theorem resize_square_dims_witness :
    resize dimsCodec { data := .buffer { width := 1920, height := 1080 } }
        (((150 : Nat) : Nat) : Int) =
      .ok { width := 150, height := 150 } :=
  resize_square_dims { width := 1920, height := 1080 } 150 (by decide)
    (by decide) (by decide)
